import Mathlib

/-!
Shallow embedding of the core matching / dedup / order-placement logic of
the Bybit P2P bot (src/main.py).

Modelling conventions:
- Python floats and parsed prices are modelled as rationals; Python ints as
  integers; UTC instants as integers (seconds), so that timedelta(days=10)
  is the constant tenDays.
- A dictionary field that Python reads with ad.get(k) is an Option field of
  the Ad structure. Fields that the code feeds to float() are of type
  Option (Option Rat): outer none means the field is absent or Python-falsy
  (None, numeric zero, empty string), some none means it is present and
  truthy but float() raises on it, and some (some q) means float() yields q.
  Identifier fields are Option String, with the empty string as the falsy
  present value.
- The try/except around the per-ad body of worker_loop means every raising
  path (unparseable price at line 219, unparseable limit at lines 228/229)
  leaves all state untouched and moves to the next ad; those paths return
  the input state unchanged.
- The gateway (self.client plus the candidate create-order methods of
  lines 185-186) is abstracted as a Gateway record: configured mirrors
  client being non-None, and orderResult gives the response of the first
  candidate method that succeeds, or none when every candidate fails.
- Two observation logs are added to the engine state: attempts records each
  invocation of create_buy_order from worker_loop line 237, and notices
  records each scheduling of notify_admin at line 268. The source keeps no
  such lists; they only make the order attempts and notifications of a run
  visible to the theorems.
- set.pop() at line 275 removes an arbitrary element; the choice is
  supplied by a pick function the theorems quantify over. save_state is
  file I/O and is not modelled.
-/

/-- Python int() on a rational: truncation toward zero, i.e. floor for
nonnegative values and ceiling for negative ones (main.py lines 227, 231). -/
def pyInt (q : ℚ) : ℤ := if q < 0 then ⌈q⌉ else ⌊q⌋

/-- Truthiness of an optional string under Python rules: an absent field and
the empty string are falsy. -/
def sTruthy (a : Option String) : Bool :=
  match a with
  | some s => s ≠ ""
  | none => false

/-- Python x or y on optional strings: keep x when truthy, else y. -/
def pyOrS (a b : Option String) : Option String := if sTruthy a then a else b

/-- Python s or d where d is a plain (truthy) string: the final fallback of
the identifier chain at main.py line 220. -/
def sFallback (a : Option String) (d : String) : String :=
  match a with
  | some s => if s = "" then d else s
  | none => d

/-- Python x or y on fields destined for float(); falsy values are encoded
as the outer none, so truthiness is just presence. -/
def pyOrP (a b : Option (Option ℚ)) : Option (Option ℚ) := if a.isSome then a else b

/-- One marketplace listing (ad) as the dictionary worker_loop reads.
idField stands for the "id" key, ad_idField for the "ad_id" key that only
create_buy_order consults, minField and maxField for the "min" and "max"
keys. -/
structure Ad where
  price : Option (Option ℚ) := none
  unitPrice : Option (Option ℚ) := none
  rate : Option (Option ℚ) := none
  adId : Option String := none
  advertisementId : Option String := none
  idField : Option String := none
  ad_idField : Option String := none
  sellerId : Option String := none
  minLimit : Option (Option ℚ) := none
  minField : Option (Option ℚ) := none
  maxLimit : Option (Option ℚ) := none
  maxField : Option (Option ℚ) := none
deriving DecidableEq

/-- main.py line 216: price_str = ad.get("price") or ad.get("unitPrice") or
ad.get("rate"). -/
def price_str (ad : Ad) : Option (Option ℚ) := pyOrP (pyOrP ad.price ad.unitPrice) ad.rate

/-- main.py line 220: the stable identifier, with the synthesized
str(price) + "_" + str(ad.get("sellerId", "")) fallback. -/
def adIdOf (ad : Ad) (price : ℚ) : String :=
  sFallback (pyOrS (pyOrS ad.adId ad.advertisementId) ad.idField)
    (toString price ++ "_" ++ ad.sellerId.getD "")

/-- main.py line 228: float(ad.get("minLimit") or ad.get("min") or 0);
none means float() raises, which the per-ad handler turns into a skip. -/
def adMinOf (ad : Ad) : Option ℚ := (pyOrP ad.minLimit ad.minField).getD (some 0)

/-- main.py line 229: float(ad.get("maxLimit") or ad.get("max") or 1e18). -/
def adMaxOf (ad : Ad) : Option ℚ := (pyOrP ad.maxLimit ad.maxField).getD (some (10 ^ 18))

/-- main.py lines 227-231: the candidate fiat amount, starting from the
configured min_buy and clamped upward to int(ad_min) when below ad_min. -/
def candAmount (min_buy : ℤ) (ad_min : ℚ) : ℤ :=
  if (min_buy : ℚ) < ad_min then pyInt ad_min else min_buy

/-- Configuration fields of the persisted state that worker_loop reads:
the price band (lines 224-225) and the buy bounds. max_buy is carried
although the loop never consults it. -/
structure BotConfig where
  pmin : ℚ
  pmax : ℚ
  min_buy : ℤ
  max_buy : ℤ
deriving DecidableEq

/-- Response of a successful create-order call; orderId and dataOrderId
stand for resp.get("orderId") and resp.get("data", {}).get("orderId") of
main.py line 252. -/
structure OrderResp where
  orderId : Option String := none
  dataOrderId : Option String := none
deriving DecidableEq

/-- The trading-platform client: configured mirrors self.client being
non-None, and orderResult ad_id amount is the response of the first
candidate order method that succeeds at lines 185-195, or none when all
candidates fail. -/
structure Gateway where
  configured : Bool
  orderResult : String → ℤ → Option OrderResp

/-- main.py lines 180-183: the identifier create_buy_order extracts, which
unlike line 220 has no synthesized fallback and also tries the "ad_id"
key; a falsy result becomes none (line 181). -/
def order_ad_id (ad : Ad) : Option String :=
  if sTruthy (pyOrS (pyOrS (pyOrS ad.adId ad.advertisementId) ad.idField) ad.ad_idField) then
    pyOrS (pyOrS (pyOrS ad.adId ad.advertisementId) ad.idField) ad.ad_idField
  else none

/-- main.py lines 172-197: returns none when the client is unconfigured,
when the ad has no usable identifier, or when no candidate order method
succeeds; otherwise the first successful response. -/
def create_buy_order (gw : Gateway) (ad : Ad) (amount_fiat : ℤ) : Option OrderResp :=
  if gw.configured then
    match order_ad_id ad with
    | some aid => gw.orderResult aid amount_fiat
    | none => none
  else none

/-- main.py lines 250-252: order_id extracted from the response, none when
the response is none. -/
def respOrderId (r : Option OrderResp) : Option String :=
  match r with
  | some resp => pyOrS resp.orderId resp.dataOrderId
  | none => none

/-- One history record (main.py lines 240-245), with the nested ad
dictionary flattened into ad_id, ad_price and ad_raw. -/
structure HistRecord where
  order_response : Option OrderResp
  ad_id : String
  ad_price : ℚ
  ad_raw : Ad
  amount : ℤ
  timestamp : String
deriving DecidableEq

/-- timedelta(days=10) of main.py line 79, with instants in seconds. -/
def tenDays : Int := 10 * 86400

/-- main.py lines 82-86 for one record: parse the timestamp, substitute the
current instant when parsing raises, and keep the record when it is not
older than the cutoff now - tenDays. -/
def keepRecord (parse : String → Option Int) (now : Int) (r : HistRecord) : Bool :=
  match parse r.timestamp with
  | some ts => decide (now - tenDays ≤ ts)
  | none => decide (now - tenDays ≤ now)

/-- main.py lines 78-88: rebuild the history keeping the records that pass
keepRecord. parse stands for datetime.fromisoformat and now for
datetime.utcnow(). -/
def prune_history (parse : String → Option Int) (now : Int) (h : List HistRecord) : List HistRecord :=
  h.filter (keepRecord parse now)

/-- One recorded invocation of create_buy_order (main.py line 237). -/
structure Attempt where
  ad : Ad
  amount : ℤ
deriving DecidableEq

/-- One scheduled operator notification (main.py lines 253-268). -/
structure Notice where
  ad_id : String
  price : ℚ
  amount : ℤ
  orderId : Option String
deriving DecidableEq

/-- Engine state threaded through a cycle: the dedup set self.seen_ads and
the persisted history, plus the two observation logs. -/
structure EngState where
  seen : Finset String
  history : List HistRecord
  attempts : List Attempt
  notices : List Notice
deriving DecidableEq

/-- main.py lines 273-278: after an insertion, drop an arbitrary member
(chosen by pick) when the set is over the soft cap of 1000. -/
def capEvict (pick : Finset String → String) (s : Finset String) : Finset String :=
  if s.card > 1000 then s.erase (pick s) else s

/-- main.py lines 214-278: processing of a single ad inside one cycle.
Every skip path of the source (absent price, float() raising on the price
or on a limit, identifier already seen, price outside the band, clamped
amount above ad_max) returns the state unchanged; the placement path calls
create_buy_order, inserts the record at the head of the history, re-prunes,
schedules the notification and marks the identifier seen with the cap
eviction. -/
def processAd (cfg : BotConfig) (gw : Gateway) (pick : Finset String → String)
    (parse : String → Option Int) (now : Int) (ts : String)
    (s : EngState) (ad : Ad) : EngState :=
  match price_str ad with
  | none => s
  | some none => s
  | some (some price) =>
    if adIdOf ad price ∈ s.seen then s
    else if cfg.pmin ≤ price ∧ price ≤ cfg.pmax then
      match adMinOf ad, adMaxOf ad with
      | some ad_min, some ad_max =>
        if (candAmount cfg.min_buy ad_min : ℚ) > ad_max then s
        else
          { seen := capEvict pick (insert (adIdOf ad price) s.seen)
            history := prune_history parse now
              ({ order_response := create_buy_order gw ad (candAmount cfg.min_buy ad_min)
                 ad_id := adIdOf ad price
                 ad_price := price
                 ad_raw := ad
                 amount := candAmount cfg.min_buy ad_min
                 timestamp := ts } :: s.history)
            attempts := s.attempts ++ [{ ad := ad, amount := candAmount cfg.min_buy ad_min }]
            notices := s.notices ++ [{ ad_id := adIdOf ad price
                                       price := price
                                       amount := candAmount cfg.min_buy ad_min
                                       orderId := respOrderId
                                         (create_buy_order gw ad (candAmount cfg.min_buy ad_min)) }] }
      | some _, none => s
      | none, _ => s
    else s

/-- main.py lines 207-282: one full cycle while running, namely the prune
of line 207 followed by the per-ad loop over the fetched ads in gateway
order. -/
def runCycle (cfg : BotConfig) (gw : Gateway) (pick : Finset String → String)
    (parse : String → Option Int) (now : Int) (ts : String)
    (s : EngState) (ads : List Ad) : EngState :=
  ads.foldl (processAd cfg gw pick parse now ts)
    { s with history := prune_history parse now s.history }

/-! Helper lemmas shared by the claim theorems. -/

theorem processAd_seen_skip (cfg : BotConfig) (gw : Gateway) (pick : Finset String → String)
    (parse : String → Option Int) (now : Int) (ts : String) (s : EngState) (ad : Ad) (q : ℚ)
    (hq : price_str ad = some (some q)) (hmem : adIdOf ad q ∈ s.seen) :
    processAd cfg gw pick parse now ts s ad = s := by
  unfold processAd
  rw [hq]
  simp [hmem]

theorem processAd_out_of_band (cfg : BotConfig) (gw : Gateway) (pick : Finset String → String)
    (parse : String → Option Int) (now : Int) (ts : String) (s : EngState) (ad : Ad) (q : ℚ)
    (hq : price_str ad = some (some q)) (hband : ¬(cfg.pmin ≤ q ∧ q ≤ cfg.pmax)) :
    processAd cfg gw pick parse now ts s ad = s := by
  unfold processAd
  rw [hq]
  by_cases hmem : adIdOf ad q ∈ s.seen
  · simp [hmem]
  · simp [hmem, hband]

theorem processAd_infeasible (cfg : BotConfig) (gw : Gateway) (pick : Finset String → String)
    (parse : String → Option Int) (now : Int) (ts : String) (s : EngState) (ad : Ad)
    (q am ax : ℚ)
    (hq : price_str ad = some (some q)) (hmem : adIdOf ad q ∉ s.seen)
    (hband : cfg.pmin ≤ q ∧ q ≤ cfg.pmax)
    (hmin : adMinOf ad = some am) (hmax : adMaxOf ad = some ax)
    (hinf : (candAmount cfg.min_buy am : ℚ) > ax) :
    processAd cfg gw pick parse now ts s ad = s := by
  unfold processAd
  rw [hq, hmin, hmax]
  simp [hmem, hband, hinf]

theorem processAd_placed (cfg : BotConfig) (gw : Gateway) (pick : Finset String → String)
    (parse : String → Option Int) (now : Int) (ts : String) (s : EngState) (ad : Ad)
    (q am ax : ℚ)
    (hq : price_str ad = some (some q)) (hmem : adIdOf ad q ∉ s.seen)
    (hband : cfg.pmin ≤ q ∧ q ≤ cfg.pmax)
    (hmin : adMinOf ad = some am) (hmax : adMaxOf ad = some ax)
    (hfeas : ¬((candAmount cfg.min_buy am : ℚ) > ax)) :
    processAd cfg gw pick parse now ts s ad =
      { seen := capEvict pick (insert (adIdOf ad q) s.seen)
        history := prune_history parse now
          ({ order_response := create_buy_order gw ad (candAmount cfg.min_buy am)
             ad_id := adIdOf ad q
             ad_price := q
             ad_raw := ad
             amount := candAmount cfg.min_buy am
             timestamp := ts } :: s.history)
        attempts := s.attempts ++ [{ ad := ad, amount := candAmount cfg.min_buy am }]
        notices := s.notices ++ [{ ad_id := adIdOf ad q
                                   price := q
                                   amount := candAmount cfg.min_buy am
                                   orderId := respOrderId
                                     (create_buy_order gw ad (candAmount cfg.min_buy am)) }] } := by
  unfold processAd
  rw [hq, hmin, hmax]
  simp [hmem, hband, hfeas]

theorem keepRecord_of_parse (parse : String → Option Int) (now v : Int) (r : HistRecord)
    (hts : parse r.timestamp = some v) (hfresh : now - tenDays ≤ v) :
    keepRecord parse now r = true := by
  unfold keepRecord
  rw [hts]
  simpa using hfresh

theorem prune_cons_keep (parse : String → Option Int) (now : Int) (r : HistRecord)
    (h : List HistRecord) (hkeep : keepRecord parse now r = true) :
    prune_history parse now (r :: h) = r :: prune_history parse now h := by
  unfold prune_history
  simp [List.filter_cons, hkeep]

/-! Concrete inputs used by witnesses and counterexamples. -/

/-- Unconfigured gateway: self.client is None. -/
def gwNone : Gateway := { configured := false, orderResult := fun _ _ => none }

/-- A concrete eviction choice for set.pop(). -/
def pick0 : Finset String → String := fun _ => ""

/-- A concrete timestamp parser mapping every string to instant 0. -/
def parse0 : String → Option Int := fun _ => some 0

/-- Empty engine state. -/
def st0 : EngState := { seen := ∅, history := [], attempts := [], notices := [] }

/-- The default configuration of DEFAULT_STATE in main.py lines 44-53. -/
def cfgW : BotConfig := { pmin := 1400, pmax := 1455, min_buy := 10000, max_buy := 1000000 }

/-- An ad priced at 1500, outside the default band. -/
def adOut : Ad := { price := some (some 1500), adId := some "X1",
                    minLimit := some (some 5000), maxLimit := some (some 2000000) }

/-- An in-band ad whose identifier is already in the seen set of stSeen. -/
def adSeen : Ad := { price := some (some 1420), adId := some "X1" }

/-- State whose seen set already holds the identifier X1. -/
def stSeen : EngState := { seen := {"X1"}, history := [], attempts := [], notices := [] }

/-- Claim C1: a listing whose parsed price lies outside the inclusive band
[pmin, pmax] leaves the engine state unchanged when the cycle processes it:
no order attempt, no history insertion, and its identifier is not added to
the seen set (main.py line 226 has no else branch). -/
theorem claim_c1_out_of_band_no_action (cfg : BotConfig) (gw : Gateway)
    (pick : Finset String → String) (parse : String → Option Int) (now : Int) (ts : String)
    (s : EngState) (ad : Ad) (q : ℚ)
    (hq : price_str ad = some (some q))
    (hout : q < cfg.pmin ∨ cfg.pmax < q) :
    processAd cfg gw pick parse now ts s ad = s := by
  apply processAd_out_of_band cfg gw pick parse now ts s ad q hq
  rcases hout with h | h
  · intro hc; exact absurd hc.1 (not_le.mpr h)
  · intro hc; exact absurd hc.2 (not_le.mpr h)

/-- Witness for C1: the listing priced 1500 with the default band. -/
theorem claim_c1_witness :
    processAd cfgW gwNone pick0 parse0 0 "t" st0 adOut = st0 :=
  claim_c1_out_of_band_no_action cfgW gwNone pick0 parse0 0 "t" st0 adOut 1500 rfl
    (Or.inr (by norm_num [cfgW]))

/-- Claim C2: a listing whose derived identifier is already in the seen set
is skipped with no order attempt and no history insertion; since the state
is quantified, the same holds in every later cycle while the identifier
remains in the set (main.py lines 220-222). -/
theorem claim_c2_seen_never_reordered (cfg : BotConfig) (gw : Gateway)
    (pick : Finset String → String) (parse : String → Option Int) (now : Int) (ts : String)
    (s : EngState) (ad : Ad) (q : ℚ)
    (hq : price_str ad = some (some q))
    (hmem : adIdOf ad q ∈ s.seen) :
    processAd cfg gw pick parse now ts s ad = s :=
  processAd_seen_skip cfg gw pick parse now ts s ad q hq hmem

/-- Witness for C2: identifier X1 already seen. -/
theorem claim_c2_witness :
    processAd cfgW gwNone pick0 parse0 0 "t" stSeen adSeen = stSeen :=
  claim_c2_seen_never_reordered cfgW gwNone pick0 parse0 0 "t" stSeen adSeen 1420 rfl
    (by decide)

/-- Claim C4: an in-band, unseen listing whose clamped candidate amount
exceeds its ad_max is skipped with the state unchanged, so nothing marks it
seen and it is re-evaluated whenever it appears again (main.py lines
230-234). -/
theorem claim_c4_infeasible_not_marked (cfg : BotConfig) (gw : Gateway)
    (pick : Finset String → String) (parse : String → Option Int) (now : Int) (ts : String)
    (s : EngState) (ad : Ad) (q am ax : ℚ)
    (hq : price_str ad = some (some q)) (hmem : adIdOf ad q ∉ s.seen)
    (hband : cfg.pmin ≤ q ∧ q ≤ cfg.pmax)
    (hmin : adMinOf ad = some am) (hmax : adMaxOf ad = some ax)
    (hinf : (candAmount cfg.min_buy am : ℚ) > ax) :
    processAd cfg gw pick parse now ts s ad = s :=
  processAd_infeasible cfg gw pick parse now ts s ad q am ax hq hmem hband hmin hmax hinf

/-- An in-band ad that cannot satisfy the clamped amount: minLimit three
million, maxLimit two million. -/
def adInf : Ad := { price := some (some 1420), adId := some "C1",
                    minLimit := some (some 3000000), maxLimit := some (some 2000000) }

/-- Witness for C4: the infeasible ad is skipped without any mutation. -/
theorem claim_c4_witness :
    processAd cfgW gwNone pick0 parse0 0 "t" st0 adInf = st0 :=
  claim_c4_infeasible_not_marked cfgW gwNone pick0 parse0 0 "t" st0 adInf 1420 3000000 2000000
    rfl (by decide) (by norm_num [cfgW]) rfl rfl (by decide)

/-- Claim C7: after one prune at reference instant now, a record is in the
result exactly when it was in the input and either its timestamp parses to
an instant not older than ten days before now, or its timestamp fails to
parse, in which case it is treated as stamped now and always retained
(main.py lines 78-88). -/
theorem claim_c7_prune_exact (parse : String → Option Int) (now : Int)
    (h : List HistRecord) (r : HistRecord) :
    r ∈ prune_history parse now h ↔
      r ∈ h ∧ ((∃ v, parse r.timestamp = some v ∧ now - tenDays ≤ v) ∨
               parse r.timestamp = none) := by
  unfold prune_history
  rw [List.mem_filter]
  constructor
  · rintro ⟨hr, hk⟩
    refine ⟨hr, ?_⟩
    unfold keepRecord at hk
    cases hp : parse r.timestamp with
    | some v =>
      rw [hp] at hk
      exact Or.inl ⟨v, rfl, by simpa using hk⟩
    | none => exact Or.inr rfl
  · rintro ⟨hr, hk⟩
    refine ⟨hr, ?_⟩
    unfold keepRecord
    rcases hk with ⟨v, hp, hle⟩ | hp
    · rw [hp]
      simpa using hle
    · rw [hp]
      simp only [decide_eq_true_eq]
      unfold tenDays
      omega

/-- Claim C8: pruning twice at the same reference instant equals pruning
once, and pruning only removes records, never adds, edits or reorders them
(the result is a sublist of the input). -/
theorem claim_c8_prune_idempotent (parse : String → Option Int) (now : Int)
    (h : List HistRecord) :
    prune_history parse now (prune_history parse now h) = prune_history parse now h
    ∧ List.Sublist (prune_history parse now h) h := by
  constructor
  · unfold prune_history
    rw [List.filter_filter]
    simp
  · exact List.filter_sublist h

/-- Floor form of pyInt on nonnegative rationals. -/
theorem pyInt_of_nonneg (q : ℚ) (h : 0 ≤ q) : pyInt q = ⌊q⌋ := by
  unfold pyInt
  rw [if_neg (not_lt.mpr h)]

/-- The rational 10000.5, written with the reduced-fraction constructor so
that kernel evaluation works. -/
def q10000h : ℚ := ⟨20001, 2, by decide, by decide⟩

/-- An in-band ad whose minLimit is the non-integral 10000.5, above the
default min_buy of 10000. -/
def ad3 : Ad := { price := some (some 1420), adId := some "A1",
                  minLimit := some (some q10000h), maxLimit := some (some 50000) }

/-- Counterexample to C3 as stated: min_buy (10000) is below minLimit
(10000.5, a non-integer witnessed by its denominator 2), so the claim says
the candidate amount is raised to minLimit, yet the cycle attempts the
order with amount 10000, which as a rational differs from minLimit: int()
truncation keeps it at 10000. -/
theorem claim_c3_counterexample :
    adMinOf ad3 = some q10000h ∧ q10000h.den = 2 ∧ (cfgW.min_buy : ℚ) < q10000h ∧
    (processAd cfgW gwNone pick0 parse0 0 "t" st0 ad3).attempts =
      [{ ad := ad3, amount := 10000 }] ∧ ((10000 : ℤ) : ℚ) ≠ q10000h := by
  refine ⟨rfl, by decide, by decide, ?_, by decide⟩
  decide

/-- Claim C3 (amended): for every in-band, unseen, feasible listing the
cycle attempts exactly one order whose amount is the configured min_buy,
raised to the int() truncation of the listing ad_min (not to ad_min itself)
when min_buy is below ad_min; the 12000-instance of the claim is unchanged
and appears as the witness. -/
theorem claim_c3_amended_clamp (cfg : BotConfig) (gw : Gateway)
    (pick : Finset String → String) (parse : String → Option Int) (now : Int) (ts : String)
    (s : EngState) (ad : Ad) (q am ax : ℚ)
    (hq : price_str ad = some (some q)) (hmem : adIdOf ad q ∉ s.seen)
    (hband : cfg.pmin ≤ q ∧ q ≤ cfg.pmax)
    (hmin : adMinOf ad = some am) (hmax : adMaxOf ad = some ax)
    (hfeas : ¬((candAmount cfg.min_buy am : ℚ) > ax)) :
    (processAd cfg gw pick parse now ts s ad).attempts =
      s.attempts ++ [{ ad := ad,
                       amount := if (cfg.min_buy : ℚ) < am then pyInt am else cfg.min_buy }] := by
  rw [processAd_placed cfg gw pick parse now ts s ad q am ax hq hmem hband hmin hmax hfeas]
  rfl

/-- The exact scenario of the spec: minLimit 12000, maxLimit 50000. -/
def adC3 : Ad := { price := some (some 1420), adId := some "A2",
                   minLimit := some (some 12000), maxLimit := some (some 50000) }

/-- Witness for amended C3: with min_buy 10000 and minLimit 12000 the order
is attempted with amount 12000, not 10000. -/
theorem claim_c3_witness :
    (processAd cfgW gwNone pick0 parse0 0 "t" st0 adC3).attempts =
      [{ ad := adC3, amount := 12000 }] := by
  rw [claim_c3_amended_clamp cfgW gwNone pick0 parse0 0 "t" st0 adC3 1420 12000 50000
    rfl (by decide) (by norm_num [cfgW]) rfl rfl (by decide)]
  decide

/-- An in-band feasible ad used by the C5 witness: minLimit 5000 below
min_buy, maxLimit 2000000. -/
def adC5 : Ad := { price := some (some 1420), adId := some "A5",
                   minLimit := some (some 5000), maxLimit := some (some 2000000) }

/-- Claim C5: when the cycle reaches order placement (in-band, unseen,
feasible listing), then for any gateway response, including none, the
record with exactly that response is inserted at the history head, the
order attempt is logged, and the identifier enters the seen set (the seen
set being below the soft cap, so the immediate arbitrary eviction of
main.py line 275 cannot fire); finally, any state whose seen set holds the
identifier processes the same ad as a no-op, so failed attempts are never
retried while the identifier stays in the set. -/
theorem claim_c5_attempt_consumes_match (cfg : BotConfig) (gw : Gateway)
    (pick : Finset String → String) (parse : String → Option Int) (now : Int) (ts : String)
    (s : EngState) (ad : Ad) (q am ax : ℚ) (v : Int)
    (hq : price_str ad = some (some q)) (hmem : adIdOf ad q ∉ s.seen)
    (hband : cfg.pmin ≤ q ∧ q ≤ cfg.pmax)
    (hmin : adMinOf ad = some am) (hmax : adMaxOf ad = some ax)
    (hfeas : ¬((candAmount cfg.min_buy am : ℚ) > ax))
    (hts : parse ts = some v) (hfresh : now - tenDays ≤ v)
    (hcard : s.seen.card < 1000) :
    (processAd cfg gw pick parse now ts s ad).history =
      { order_response := create_buy_order gw ad (candAmount cfg.min_buy am)
        ad_id := adIdOf ad q
        ad_price := q
        ad_raw := ad
        amount := candAmount cfg.min_buy am
        timestamp := ts } :: prune_history parse now s.history
    ∧ adIdOf ad q ∈ (processAd cfg gw pick parse now ts s ad).seen
    ∧ (processAd cfg gw pick parse now ts s ad).attempts =
        s.attempts ++ [{ ad := ad, amount := candAmount cfg.min_buy am }]
    ∧ ∀ (cfg2 : BotConfig) (gw2 : Gateway) (pick2 : Finset String → String)
        (parse2 : String → Option Int) (now2 : Int) (ts2 : String) (s2 : EngState),
        adIdOf ad q ∈ s2.seen → processAd cfg2 gw2 pick2 parse2 now2 ts2 s2 ad = s2 := by
  rw [processAd_placed cfg gw pick parse now ts s ad q am ax hq hmem hband hmin hmax hfeas]
  have hcap : capEvict pick (insert (adIdOf ad q) s.seen) = insert (adIdOf ad q) s.seen := by
    unfold capEvict
    have hcd : (insert (adIdOf ad q) s.seen).card ≤ s.seen.card + 1 :=
      Finset.card_insert_le (adIdOf ad q) s.seen
    rw [if_neg (by omega)]
  refine ⟨?_, ?_, rfl, ?_⟩
  · exact prune_cons_keep parse now _ s.history (keepRecord_of_parse parse now v _ hts hfresh)
  · rw [hcap]
    exact Finset.mem_insert_self (adIdOf ad q) s.seen
  · intro cfg2 gw2 pick2 parse2 now2 ts2 s2 hmem2
    exact processAd_seen_skip cfg2 gw2 pick2 parse2 now2 ts2 s2 ad q hq hmem2

/-- Witness for C5 with the unconfigured gateway, so the recorded response
is none and the identifier is still marked seen. -/
theorem claim_c5_witness :
    adIdOf adC5 1420 ∈ (processAd cfgW gwNone pick0 parse0 0 "t" st0 adC5).seen
    ∧ (processAd cfgW gwNone pick0 parse0 0 "t" st0 adC5).history =
      [{ order_response := none, ad_id := "A5", ad_price := 1420, ad_raw := adC5,
         amount := 10000, timestamp := "t" }] := by
  have h := claim_c5_attempt_consumes_match cfgW gwNone pick0 parse0 0 "t" st0 adC5
    1420 5000 2000000 0 rfl (by decide) (by norm_num [cfgW]) rfl rfl (by decide) rfl
    (by decide) (by decide)
  refine ⟨h.2.1, ?_⟩
  rw [h.1]
  decide

/-- Claim C6: when the order-placement capability is unavailable, either
because no client is configured or because every candidate order method
fails, create_buy_order returns none for every ad and amount, and a cycle
that reaches placement for an in-band, unseen, feasible listing still
inserts a history record whose order_response is none and still schedules
the operator notification for that attempt (main.py lines 172-197 and
236-270). -/
theorem claim_c6_unavailable_gateway (cfg : BotConfig) (gw : Gateway)
    (pick : Finset String → String) (parse : String → Option Int) (now : Int) (ts : String)
    (s : EngState) (ad : Ad) (q am ax : ℚ) (v : Int)
    (hgw : gw.configured = false ∨ ∀ (aid : String) (amt : ℤ), gw.orderResult aid amt = none)
    (hq : price_str ad = some (some q)) (hmem : adIdOf ad q ∉ s.seen)
    (hband : cfg.pmin ≤ q ∧ q ≤ cfg.pmax)
    (hmin : adMinOf ad = some am) (hmax : adMaxOf ad = some ax)
    (hfeas : ¬((candAmount cfg.min_buy am : ℚ) > ax))
    (hts : parse ts = some v) (hfresh : now - tenDays ≤ v) :
    (∀ (ad2 : Ad) (amt : ℤ), create_buy_order gw ad2 amt = none)
    ∧ (processAd cfg gw pick parse now ts s ad).history =
        { order_response := none, ad_id := adIdOf ad q, ad_price := q, ad_raw := ad,
          amount := candAmount cfg.min_buy am, timestamp := ts } ::
          prune_history parse now s.history
    ∧ (processAd cfg gw pick parse now ts s ad).notices =
        s.notices ++ [{ ad_id := adIdOf ad q, price := q,
                        amount := candAmount cfg.min_buy am, orderId := none }] := by
  have hnone : ∀ (ad2 : Ad) (amt : ℤ), create_buy_order gw ad2 amt = none := by
    intro ad2 amt
    unfold create_buy_order
    rcases hgw with hg | hg
    · rw [hg]
      simp
    · cases h2 : order_ad_id ad2 with
      | some aid => simp [hg]
      | none => simp
  refine ⟨hnone, ?_, ?_⟩
  · rw [processAd_placed cfg gw pick parse now ts s ad q am ax hq hmem hband hmin hmax hfeas,
      hnone ad (candAmount cfg.min_buy am)]
    exact prune_cons_keep parse now _ s.history (keepRecord_of_parse parse now v _ hts hfresh)
  · rw [processAd_placed cfg gw pick parse now ts s ad q am ax hq hmem hband hmin hmax hfeas,
      hnone ad (candAmount cfg.min_buy am)]
    rfl

/-- Witness for C6: the unconfigured gateway with the feasible ad adC5. -/
theorem claim_c6_witness :
    create_buy_order gwNone adC5 12345 = none
    ∧ (processAd cfgW gwNone pick0 parse0 0 "t" st0 adC5).history =
        [{ order_response := none, ad_id := "A5", ad_price := 1420, ad_raw := adC5,
           amount := 10000, timestamp := "t" }]
    ∧ (processAd cfgW gwNone pick0 parse0 0 "t" st0 adC5).notices =
        [{ ad_id := "A5", price := 1420, amount := 10000, orderId := none }] := by
  have h := claim_c6_unavailable_gateway cfgW gwNone pick0 parse0 0 "t" st0 adC5
    1420 5000 2000000 0 (Or.inl rfl) rfl (by decide) (by norm_num [cfgW]) rfl rfl
    (by decide) rfl (by decide)
  refine ⟨h.1 adC5 12345, ?_, ?_⟩
  · rw [h.2.1]
    decide
  · rw [h.2.2]
    decide

/-- The rational 100.5 in reduced-fraction form. -/
def qC9 : ℚ := ⟨201, 2, by decide, by decide⟩

/-- A configuration with min_buy 50 and max_buy 100. -/
def cfg9 : BotConfig := { pmin := 1400, pmax := 1455, min_buy := 50, max_buy := 100 }

/-- An in-band ad with minLimit 100.5, just above max_buy 100. -/
def ad9 : Ad := { price := some (some 1420), adId := some "B1",
                  minLimit := some (some qC9), maxLimit := some (some 50000) }

/-- Counterexample to the final clause of C9 as stated: minLimit 100.5
exceeds max_buy 100 and does not exceed maxLimit 50000, yet the attempted
amount is int(100.5) = 100, equal to max_buy and not exceeding it. -/
theorem claim_c9_counterexample :
    cfg9.min_buy ≤ cfg9.max_buy ∧ (cfg9.max_buy : ℚ) < qC9
    ∧ adMinOf ad9 = some qC9 ∧ adMaxOf ad9 = some 50000 ∧ qC9 ≤ 50000
    ∧ (processAd cfg9 gwNone pick0 parse0 0 "t" st0 ad9).attempts =
        [{ ad := ad9, amount := 100 }]
    ∧ ¬((100 : ℤ) > cfg9.max_buy) := by
  refine ⟨by decide, by decide, rfl, rfl, by decide, ?_, by decide⟩
  decide

/-- Claim C9 (amended): the matching cycle never reads max_buy, so two runs
identical except for max_buy produce identical states, order attempts and
notifications; and for an in-band, unseen listing with ad_min above a
nonnegative max_buy and a feasible truncated amount, the order amount is at
least max_buy, strictly above it whenever ad_min reaches max_buy + 1 (when
ad_min is fractionally above max_buy the amount can equal max_buy, which is
what the counterexample exhibits). -/
theorem claim_c9_amended_maxbuy (a b : ℚ) (mi m1 m2 : ℤ) (gw : Gateway)
    (pick : Finset String → String) (parse : String → Option Int) (now : Int) (ts : String)
    (s : EngState) (ads : List Ad)
    (cfg : BotConfig) (gw2 : Gateway) (s2 : EngState) (ad : Ad) (q am ax : ℚ)
    (hmb : cfg.min_buy ≤ cfg.max_buy) (hnn : 0 ≤ cfg.max_buy)
    (hq : price_str ad = some (some q)) (hmem : adIdOf ad q ∉ s2.seen)
    (hband : cfg.pmin ≤ q ∧ q ≤ cfg.pmax)
    (hmin : adMinOf ad = some am) (hmax : adMaxOf ad = some ax)
    (hgt : (cfg.max_buy : ℚ) < am)
    (hfeas : ¬((candAmount cfg.min_buy am : ℚ) > ax)) :
    runCycle { pmin := a, pmax := b, min_buy := mi, max_buy := m1 } gw pick parse now ts s ads
      = runCycle { pmin := a, pmax := b, min_buy := mi, max_buy := m2 } gw pick parse now ts s ads
    ∧ (processAd cfg gw2 pick parse now ts s2 ad).attempts
        = s2.attempts ++ [{ ad := ad, amount := candAmount cfg.min_buy am }]
    ∧ cfg.max_buy ≤ candAmount cfg.min_buy am
    ∧ ((cfg.max_buy : ℚ) + 1 ≤ am → cfg.max_buy < candAmount cfg.min_buy am) := by
  have hm0 : (0 : ℚ) ≤ am := le_of_lt (lt_of_le_of_lt (by exact_mod_cast hnn) hgt)
  have hlt : (cfg.min_buy : ℚ) < am := lt_of_le_of_lt (by exact_mod_cast hmb) hgt
  have hcand : candAmount cfg.min_buy am = ⌊am⌋ := by
    unfold candAmount
    rw [if_pos hlt, pyInt_of_nonneg am hm0]
  refine ⟨rfl, ?_, ?_, ?_⟩
  · rw [processAd_placed cfg gw2 pick parse now ts s2 ad q am ax hq hmem hband hmin hmax hfeas]
  · rw [hcand]
    exact Int.le_floor.mpr (le_of_lt hgt)
  · intro h1
    rw [hcand]
    have h2 : (cfg.max_buy + 1 : ℤ) ≤ ⌊am⌋ := Int.le_floor.mpr (by push_cast; linarith)
    omega

/-- An in-band ad with the integral minLimit 101, above max_buy 100. -/
def ad9w : Ad := { price := some (some 1420), adId := some "B2",
                   minLimit := some (some 101), maxLimit := some (some 50000) }

/-- Witness for amended C9: a run with max_buy 100 equals one with max_buy
999999, and with minLimit 101 = max_buy + 1 the attempted amount 101
strictly exceeds max_buy. -/
theorem claim_c9_witness :
    runCycle { pmin := 1400, pmax := 1455, min_buy := 50, max_buy := 100 }
        gwNone pick0 parse0 0 "t" st0 [ad9w]
      = runCycle { pmin := 1400, pmax := 1455, min_buy := 50, max_buy := 999999 }
        gwNone pick0 parse0 0 "t" st0 [ad9w]
    ∧ (processAd cfg9 gwNone pick0 parse0 0 "t" st0 ad9w).attempts =
        [{ ad := ad9w, amount := 101 }]
    ∧ cfg9.max_buy < candAmount cfg9.min_buy 101 := by
  have h := claim_c9_amended_maxbuy 1400 1455 50 100 999999 gwNone pick0 parse0 0 "t"
    st0 [ad9w] cfg9 gwNone st0 ad9w 1420 101 50000 (by decide) (by decide) rfl
    (by decide) (by norm_num [cfg9]) rfl rfl (by decide) (by decide)
  refine ⟨h.1, ?_, h.2.2.2 (by norm_num [cfg9])⟩
  rw [h.2.1]
  decide

/-- The rational 12000.5 in reduced-fraction form. -/
def qC10 : ℚ := ⟨24001, 2, by decide, by decide⟩

/-- An in-band ad with non-integral minLimit 12000.5 but maxLimit 500, so
the truncated amount 12000 is infeasible. -/
def ad10 : Ad := { price := some (some 1420), adId := some "D1",
                   minLimit := some (some qC10), maxLimit := some (some 500) }

/-- Counterexample to C10 as stated: minLimit 12000.5 is non-integral
(denominator 2) and above min_buy 10000, the ad is in-band and unseen, yet
no order is placed at all: the truncated amount 12000 exceeds maxLimit 500
and the listing is skipped with the state unchanged (main.py lines
232-234), against the unconditional placement clause of the claim. -/
theorem claim_c10_counterexample :
    adMinOf ad10 = some qC10 ∧ qC10.den = 2 ∧ (cfgW.min_buy : ℚ) < qC10
    ∧ price_str ad10 = some (some 1420)
    ∧ (cfgW.pmin ≤ (1420 : ℚ) ∧ (1420 : ℚ) ≤ cfgW.pmax)
    ∧ adIdOf ad10 1420 ∉ st0.seen
    ∧ processAd cfgW gwNone pick0 parse0 0 "t" st0 ad10 = st0 := by
  refine ⟨rfl, by decide, by decide, rfl, by decide, by decide, ?_⟩
  decide

/-- Claim C10 (amended): for an in-band, unseen listing whose ad_min is
non-integral, nonnegative and above min_buy, the chosen amount is the
floor of ad_min, strictly below ad_min, and the order is placed with that
amount provided it does not exceed ad_max (the proviso the counterexample
forces; when the floor exceeds ad_max the listing is skipped instead). -/
theorem claim_c10_amended_truncation (cfg : BotConfig) (gw : Gateway)
    (pick : Finset String → String) (parse : String → Option Int) (now : Int) (ts : String)
    (s : EngState) (ad : Ad) (q am ax : ℚ)
    (hq : price_str ad = some (some q)) (hmem : adIdOf ad q ∉ s.seen)
    (hband : cfg.pmin ≤ q ∧ q ≤ cfg.pmax)
    (hmin : adMinOf ad = some am) (hmax : adMaxOf ad = some ax)
    (hden : am.den ≠ 1) (h0 : 0 ≤ am) (hlt : (cfg.min_buy : ℚ) < am)
    (hfeas : ¬((⌊am⌋ : ℚ) > ax)) :
    (processAd cfg gw pick parse now ts s ad).attempts =
      s.attempts ++ [{ ad := ad, amount := ⌊am⌋ }]
    ∧ (⌊am⌋ : ℚ) < am := by
  have hcand : candAmount cfg.min_buy am = ⌊am⌋ := by
    unfold candAmount
    rw [if_pos hlt, pyInt_of_nonneg am h0]
  have hflt : (⌊am⌋ : ℚ) < am := by
    rcases lt_or_eq_of_le (Int.floor_le am) with h | h
    · exact h
    · exact absurd (h ▸ Rat.den_intCast ⌊am⌋) hden
  refine ⟨?_, hflt⟩
  have hfeas2 : ¬((candAmount cfg.min_buy am : ℚ) > ax) := by
    rw [hcand]
    exact hfeas
  rw [processAd_placed cfg gw pick parse now ts s ad q am ax hq hmem hband hmin hmax hfeas2,
    hcand]

/-- The same non-integral minLimit 12000.5 with a generous maxLimit. -/
def ad10w : Ad := { price := some (some 1420), adId := some "D2",
                    minLimit := some (some qC10), maxLimit := some (some 50000) }

/-- Witness for amended C10: with minLimit 12000.5 the order is placed with
the truncated amount 12000, strictly below minLimit. -/
theorem claim_c10_witness :
    (processAd cfgW gwNone pick0 parse0 0 "t" st0 ad10w).attempts =
      [{ ad := ad10w, amount := 12000 }]
    ∧ ((12000 : ℤ) : ℚ) < qC10 := by
  have h := claim_c10_amended_truncation cfgW gwNone pick0 parse0 0 "t" st0 ad10w
    1420 qC10 50000 rfl (by decide) (by norm_num [cfgW]) rfl rfl (by decide) (by decide)
    (by decide) (by decide)
  constructor
  · rw [h.1]
    decide
  · have h2 := h.2
    rwa [show ⌊qC10⌋ = 12000 by decide] at h2
